import Mathlib

/-!
Shallow embedding of the command-pattern undo/redo editor from the
repository's design-patterns example (`Document`, `AddTextCommand`,
`RemoveTextCommand`, `DocumentEditor`).

The `Document` holds a single string buffer; its operations are modelled
as pure functions on the buffer content.  Commands capture a snapshot of
the document content at construction time and restore it wholesale on
undo.  The editor keeps a history list and an integer cursor
(`currentPosition`, starting at `-1`); `undo`/`redo` are modelled as
`Option`-valued functions where `none` corresponds to the JavaScript
runtime error of invoking a method on `undefined` (an out-of-range
history access) — in all reachable states they return `some`.
-/

namespace TsHero

/-- `Document.addText(text)`: `this.content += text`. -/
def Document.addText (content text : String) : String :=
  content ++ text

/-- `Document.removeText(length)`: `this.content = this.content.slice(0, -length)`.
JavaScript `slice(0, -length)` with `length = 0` is `slice(0, 0) = ""`;
with `length > 0` it keeps the first `content.length - length` characters
(clamped at zero by `Nat` subtraction, as JS clamps a negative end index). -/
def Document.removeText (content : String) (length : Nat) : String :=
  if length = 0 then "" else content.take (content.length - length)

/-- `Document.getContent()`: returns the buffer. -/
def Document.getContent (content : String) : String :=
  content

/-- `Document.setContent(content)`: overwrites the buffer wholesale. -/
def Document.setContent (_content newContent : String) : String :=
  newContent

/-- The two `Command` implementations in the source: `AddTextCommand`
and `RemoveTextCommand`.  Each stores its operation parameter and the
`previousContent` snapshot captured in its constructor. -/
inductive Command where
  | addText (previousContent : String) (text : String)
  | removeText (previousContent : String) (length : Nat)
deriving DecidableEq, Repr

/-- The `previousContent` field of either command variant. -/
def Command.previousContent : Command → String
  | .addText prev _ => prev
  | .removeText prev _ => prev

/-- `execute()`: `AddTextCommand` calls `document.addText(text)`;
`RemoveTextCommand` calls `document.removeText(length)`. -/
def Command.execute : Command → String → String
  | .addText _ text, content => Document.addText content text
  | .removeText _ length, content => Document.removeText content length

/-- `undo()`: both variants call `document.setContent(previousContent)`. -/
def Command.undo : Command → String → String
  | .addText prev _, content => Document.setContent content prev
  | .removeText prev _, content => Document.setContent content prev

/-- `new AddTextCommand(document, text)`: captures
`previousContent = document.getContent()`. -/
def mkAddTextCommand (document text : String) : Command :=
  .addText (Document.getContent document) text

/-- `new RemoveTextCommand(document, length)`: captures
`previousContent = document.getContent()`. -/
def mkRemoveTextCommand (document : String) (length : Nat) : Command :=
  .removeText (Document.getContent document) length

/-- The mutable state owned by a `DocumentEditor` session: the document
buffer, the command history, and the cursor `currentPosition`. -/
structure EditorState where
  content : String
  history : List Command
  currentPosition : Int
deriving DecidableEq, Repr

/-- A fresh session: `new Document()` has `content = ''`; the editor
starts with `history = []`, `currentPosition = -1`. -/
def EditorState.initial : EditorState :=
  ⟨"", [], -1⟩

namespace DocumentEditor

/-- `executeCommand(command)`: truncate `history` to
`currentPosition + 1` elements, run `command.execute()`, push the
command, increment the position. -/
def executeCommand (st : EditorState) (c : Command) : EditorState :=
  { content := c.execute st.content
    history := st.history.take (st.currentPosition + 1).toNat ++ [c]
    currentPosition := st.currentPosition + 1 }

/-- `undo()`: if `currentPosition >= 0`, call
`history[currentPosition].undo()` and decrement the position; otherwise
do nothing.  `none` models the runtime error of an out-of-range access
(never hit in reachable states). -/
def undo (st : EditorState) : Option EditorState :=
  if 0 ≤ st.currentPosition then
    match st.history[st.currentPosition.toNat]? with
    | some c =>
        some { st with
          content := c.undo st.content
          currentPosition := st.currentPosition - 1 }
    | none => none
  else
    some st

/-- `redo()`: if `currentPosition < history.length - 1`, increment the
position and call `history[currentPosition].execute()`; otherwise do
nothing. -/
def redo (st : EditorState) : Option EditorState :=
  if st.currentPosition < (st.history.length : Int) - 1 then
    match st.history[(st.currentPosition + 1).toNat]? with
    | some c =>
        some { st with
          content := c.execute st.content
          currentPosition := st.currentPosition + 1 }
    | none => none
  else
    some st

/-- `getContent()`: delegates to `document.getContent()`. -/
def getContent (st : EditorState) : String :=
  Document.getContent st.content

end DocumentEditor

/-- The spec's editor-state invariant:
`position` is always within `[-1, history.length - 1]`. -/
def EditorInvariant (st : EditorState) : Prop :=
  -1 ≤ st.currentPosition ∧ st.currentPosition ≤ (st.history.length : Int) - 1

/-- Editor states reachable from the initial state by any sequence of
`executeCommand`, `undo` and `redo` calls. -/
inductive Reachable : EditorState → Prop where
  | init : Reachable EditorState.initial
  | exec {st : EditorState} (c : Command) :
      Reachable st → Reachable (DocumentEditor.executeCommand st c)
  | undo {st st' : EditorState} :
      Reachable st → DocumentEditor.undo st = some st' → Reachable st'
  | redo {st st' : EditorState} :
      Reachable st → DocumentEditor.redo st = some st' → Reachable st'

/-! ### Spec-side definitions for the fold refinement claims

The spec's testable property describes the editor run as a left-to-right
fold of abstract append/remove operations.  These definitions follow the
spec's words ("append concatenates its text; remove drops the last count
characters, clamped at empty") and are compared with the source-derived
editor above. -/

/-- Spec-side remove: "removes the last `count` characters from
`content`", clamped at empty (`Nat` subtraction clamps the kept length
at zero).  Compare with `Document.removeText` from the source. -/
def removeLastSpec (s : String) (count : Nat) : String :=
  s.take (s.length - count)

/-- An abstract append/remove editing operation, before being wrapped
as a command. -/
inductive Op where
  | append (text : String)
  | remove (count : Nat)
deriving DecidableEq, Repr

/-- Spec-side fold step: append concatenates its text; remove drops the
last `count` characters, clamped at empty. -/
def applyOpSpec (s : String) : Op → String
  | .append t => s ++ t
  | .remove n => removeLastSpec s n

/-- Wrap an operation as the corresponding command, constructed against
the current document content (so the snapshot is captured immediately
before the command is handed to the editor). -/
def Op.toCommand (document : String) : Op → Command
  | .append t => mkAddTextCommand document t
  | .remove n => mkRemoveTextCommand document n

/-- Drive a list of operations through the editor: each operation is
wrapped as a command against the current content and executed via
`executeCommand`, with no interleaved undo/redo. -/
def runOps (st : EditorState) : List Op → EditorState
  | [] => st
  | op :: ops => runOps (DocumentEditor.executeCommand st (op.toCommand st.content)) ops

/-- An operation whose remove count is positive (append operations are
unconstrained). -/
def Op.positiveCount : Op → Prop
  | .append _ => True
  | .remove n => 1 ≤ n

/-- The spec's concrete scenario, first step: a fresh session after
executing `AddTextCommand "Hello "` (constructed against the current
content immediately before being handed over). -/
def helloState₁ : EditorState :=
  DocumentEditor.executeCommand EditorState.initial
    (mkAddTextCommand EditorState.initial.content "Hello ")

/-- The spec's concrete scenario, second step: `helloState₁` after
executing `AddTextCommand "World!"` (again constructed against the
current content). -/
def helloState₂ : EditorState :=
  DocumentEditor.executeCommand helloState₁ (mkAddTextCommand helloState₁.content "World!")

/-! ### Helper lemmas -/

theorem Command.undo_eq (c : Command) (s : String) : c.undo s = c.previousContent := by
  cases c <;> rfl

theorem take_position_length (st : EditorState) (h : EditorInvariant st) :
    (st.history.take (st.currentPosition + 1).toNat).length = (st.currentPosition + 1).toNat := by
  obtain ⟨h1, h2⟩ := h
  rw [List.length_take]
  omega

theorem undo_executeCommand (st : EditorState) (c : Command) (h : EditorInvariant st) :
    DocumentEditor.undo (DocumentEditor.executeCommand st c) =
      some { content := c.previousContent
             history := st.history.take (st.currentPosition + 1).toNat ++ [c]
             currentPosition := st.currentPosition } := by
  have hget := List.getElem?_concat_length (st.history.take (st.currentPosition + 1).toNat) c
  rw [take_position_length st h] at hget
  obtain ⟨h1, h2⟩ := h
  unfold DocumentEditor.undo DocumentEditor.executeCommand
  simp only
  rw [if_pos (by omega : (0:Int) ≤ st.currentPosition + 1), hget]
  simp [Command.undo_eq]

theorem redo_undo_executeCommand (st : EditorState) (c : Command) (h : EditorInvariant st) :
    DocumentEditor.redo
      { content := c.previousContent
        history := st.history.take (st.currentPosition + 1).toNat ++ [c]
        currentPosition := st.currentPosition } =
      some { content := c.execute c.previousContent
             history := st.history.take (st.currentPosition + 1).toNat ++ [c]
             currentPosition := st.currentPosition + 1 } := by
  have hget := List.getElem?_concat_length (st.history.take (st.currentPosition + 1).toNat) c
  rw [take_position_length st h] at hget
  have hlen := take_position_length st h
  obtain ⟨h1, h2⟩ := h
  unfold DocumentEditor.redo
  simp only [List.length_append, hlen, List.length_cons, List.length_nil]
  rw [if_pos (by push_cast; omega), hget]

theorem reachable_invariant {st : EditorState} (h : Reachable st) : EditorInvariant st := by
  induction h with
  | init => exact ⟨by norm_num [EditorState.initial], by norm_num [EditorState.initial]⟩
  | exec c _ ih =>
      obtain ⟨h1, h2⟩ := ih
      refine ⟨?_, ?_⟩
      · simp only [DocumentEditor.executeCommand]
        omega
      · simp only [DocumentEditor.executeCommand, List.length_append, List.length_take,
          List.length_cons, List.length_nil]
        push_cast
        omega
  | undo _ heq ih =>
      obtain ⟨h1, h2⟩ := ih
      unfold DocumentEditor.undo at heq
      split at heq
      · split at heq
        · cases heq
          refine ⟨?_, ?_⟩ <;> dsimp only <;> omega
        · exact Option.noConfusion heq
      · cases heq
        exact ⟨h1, h2⟩
  | redo _ heq ih =>
      obtain ⟨h1, h2⟩ := ih
      unfold DocumentEditor.redo at heq
      split at heq
      · split at heq
        · cases heq
          refine ⟨?_, ?_⟩ <;> dsimp only <;> omega
        · exact Option.noConfusion heq
      · cases heq
        exact ⟨h1, h2⟩

theorem runOps_content (ops : List Op) (st : EditorState)
    (h : ∀ op ∈ ops, op.positiveCount) :
    (runOps st ops).content = ops.foldl applyOpSpec st.content := by
  induction ops generalizing st with
  | nil => rfl
  | cons op ops ih =>
      rw [runOps, List.foldl_cons, ih _ (fun o ho => h o (List.mem_cons_of_mem _ ho))]
      congr 1
      have hpos := h op (List.mem_cons_self _ _)
      cases op with
      | append t => rfl
      | remove n =>
          simp only [DocumentEditor.executeCommand, Op.toCommand, mkRemoveTextCommand,
            Command.execute, applyOpSpec, removeLastSpec, Document.removeText,
            Document.getContent]
          rw [if_neg (by simp only [Op.positiveCount] at hpos; omega)]

/-! ### Claim theorems -/

/-- Claim C1: for any Document state `S` and any command `C` whose
construction-time snapshot is `S` (the spec's command lifecycle: created
immediately before being handed to the editor, so the snapshot is the
pre-execute state), `executeCommand(C)` followed by `undo()` restores the
document content to exactly `S`.  The editor-state hypothesis is the
spec's own position invariant, which holds in every reachable state. -/
theorem execute_then_undo_restores (st : EditorState) (c : Command)
    (hinv : EditorInvariant st) (hc : c.previousContent = st.content) :
    (DocumentEditor.undo (DocumentEditor.executeCommand st c)).map EditorState.content
      = some st.content := by
  rw [undo_executeCommand st c hinv]
  simp [hc]

/-- Witness for C1: executing `AddTextCommand "Hello "` on a fresh
editor and undoing restores the empty content. -/
theorem execute_then_undo_restores_witness :
    (DocumentEditor.undo (DocumentEditor.executeCommand EditorState.initial
        (mkAddTextCommand "" "Hello "))).map EditorState.content
      = some EditorState.initial.content :=
  execute_then_undo_restores EditorState.initial (mkAddTextCommand "" "Hello ")
    ⟨by decide, by decide⟩ (by decide)

/-- Claim C2, counterexample: the editor run does NOT always equal the
spec's fold.  A `remove 0` command empties the buffer in the code
(`slice(0, -0) = slice(0, 0)`), while the spec's "drops the last count
characters" fold leaves it unchanged: after `append "a"` then
`remove 0`, the editor content is `""` but the fold yields `"a"`. -/
theorem editor_fold_counterexample :
    (runOps EditorState.initial [Op.append "a", Op.remove 0]).content
      ≠ [Op.append "a", Op.remove 0].foldl applyOpSpec "" := by
  decide

/-- Claim C2, amended: for every finite sequence of append/remove
operations in which every remove count is at least 1, each wrapped as a
command immediately before execution and driven through
`executeCommand` with no interleaved undo/redo, the final `getContent()`
equals the left-to-right fold of those operations over an initially
empty buffer. -/
theorem editor_run_is_fold (ops : List Op) (h : ∀ op ∈ ops, op.positiveCount) :
    DocumentEditor.getContent (runOps EditorState.initial ops)
      = ops.foldl applyOpSpec "" :=
  runOps_content ops EditorState.initial h

/-- Witness for the amended C2: `append "ab"` then `remove 1` gives
`"a"` both via the editor and via the fold. -/
theorem editor_run_is_fold_witness :
    DocumentEditor.getContent (runOps EditorState.initial [Op.append "ab", Op.remove 1])
      = [Op.append "ab", Op.remove 1].foldl applyOpSpec "" :=
  editor_run_is_fold [Op.append "ab", Op.remove 1]
    (by intro op hop; simp only [List.mem_cons, List.not_mem_nil, or_false] at hop
        rcases hop with rfl | rfl <;> simp [Op.positiveCount])

/-- Claim C3: with history `[C1, C2]` at position 1, `undo()` followed by
`executeCommand(C3)` leaves the history exactly `[C1, C3]` at position 1,
and a subsequent `redo()` is a no-op — `C2` is permanently discarded. -/
theorem new_command_discards_redo (c₁ c₂ c₃ : Command) (s : String) :
    (DocumentEditor.undo ⟨s, [c₁, c₂], 1⟩).map
        (fun st => DocumentEditor.executeCommand st c₃)
      = some ⟨c₃.execute c₂.previousContent, [c₁, c₃], 1⟩ ∧
    DocumentEditor.redo ⟨c₃.execute c₂.previousContent, [c₁, c₃], 1⟩
      = some ⟨c₃.execute c₂.previousContent, [c₁, c₃], 1⟩ := by
  constructor
  · simp [DocumentEditor.undo, DocumentEditor.executeCommand, Command.undo_eq]
  · simp [DocumentEditor.redo]

/-- Claim C4: `undo()` at `position = -1` and `redo()` at
`position = history.length - 1` are silent no-ops: the editor state is
returned unchanged (`some`, i.e. no error), for every content and
history. -/
theorem boundary_noops (s : String) (hist : List Command) :
    DocumentEditor.undo ⟨s, hist, -1⟩ = some ⟨s, hist, -1⟩ ∧
    DocumentEditor.redo ⟨s, hist, (hist.length : Int) - 1⟩
      = some ⟨s, hist, (hist.length : Int) - 1⟩ := by
  constructor
  · simp [DocumentEditor.undo]
  · simp [DocumentEditor.redo]

/-- Claim C5: in every editor state reachable from the initial state
(`history = []`, `position = -1`) by any sequence of `executeCommand`,
`undo` and `redo`, the invariant `-1 ≤ position ≤ history.length - 1`
holds. -/
theorem position_invariant (st : EditorState) (h : Reachable st) :
    -1 ≤ st.currentPosition ∧ st.currentPosition ≤ (st.history.length : Int) - 1 :=
  reachable_invariant h

/-- Witness for C5: the state after one `executeCommand` on a fresh
editor satisfies the invariant. -/
theorem position_invariant_witness :
    -1 ≤ (DocumentEditor.executeCommand EditorState.initial
        (mkAddTextCommand "" "Hi")).currentPosition ∧
      (DocumentEditor.executeCommand EditorState.initial
        (mkAddTextCommand "" "Hi")).currentPosition ≤
        (((DocumentEditor.executeCommand EditorState.initial
          (mkAddTextCommand "" "Hi")).history.length : Int)) - 1 :=
  position_invariant _ (Reachable.exec _ Reachable.init)

/-- Claim C6, counterexample: `removeText` does NOT remove "the last
`count` characters" for every count: at `count = 0` on content `"ab"`
the code yields `""` (`slice(0, -0)` is `slice(0, 0)`), while removing
the last 0 characters would leave `"ab"`. -/
theorem removeText_zero_counterexample :
    Document.removeText "ab" 0 ≠ removeLastSpec "ab" 0 := by
  decide

/-- Claim C6, amended: for every content string and every `count ≥ 1`,
`removeText(count)` removes the last `count` characters, clamped:
removing at least as many characters as exist yields the empty string
(in particular an already-empty buffer stays empty), and no error is
raised. -/
theorem removeText_removes_last (s : String) (n : Nat) (h : 1 ≤ n) :
    Document.removeText s n = removeLastSpec s n ∧
      (s.length ≤ n → Document.removeText s n = "") := by
  have hne : Document.removeText s n = s.take (s.length - n) := by
    unfold Document.removeText
    rw [if_neg (by omega)]
  refine ⟨hne.trans rfl, fun hle => ?_⟩
  rw [hne, Nat.sub_eq_zero_of_le hle, String.take_eq]
  rfl

/-- Witness for the amended C6: removing 6 of 6 characters and removing
3 from an empty buffer both yield the empty string (the spec's concrete
scenario). -/
theorem removeText_removes_last_witness :
    (Document.removeText "abcdef" 6 = removeLastSpec "abcdef" 6 ∧
      ("abcdef".length ≤ 6 → Document.removeText "abcdef" 6 = "")) ∧
    (Document.removeText "" 3 = removeLastSpec "" 3 ∧
      ("".length ≤ 3 → Document.removeText "" 3 = "")) :=
  ⟨removeText_removes_last "abcdef" 6 (by decide),
   removeText_removes_last "" 3 (by decide)⟩

/-- Claim C7: for any editor state satisfying the position invariant and
any command `C` constructed at the current content (the spec's command
lifecycle), `executeCommand(C)`, `undo()`, `redo()` leaves the editor —
in particular the document content — in exactly the same state as
`executeCommand(C)` alone. -/
theorem execute_undo_redo_eq_execute (st : EditorState) (c : Command)
    (hinv : EditorInvariant st) (hc : c.previousContent = st.content) :
    (DocumentEditor.undo (DocumentEditor.executeCommand st c)).bind DocumentEditor.redo
      = some (DocumentEditor.executeCommand st c) := by
  rw [undo_executeCommand st c hinv]
  rw [Option.some_bind]
  rw [redo_undo_executeCommand st c hinv, hc]
  rfl

/-- Witness for C7: execute–undo–redo of `AddTextCommand "abc"` on a
fresh editor equals plain execute. -/
theorem execute_undo_redo_eq_execute_witness :
    (DocumentEditor.undo (DocumentEditor.executeCommand EditorState.initial
        (mkAddTextCommand "" "abc"))).bind DocumentEditor.redo
      = some (DocumentEditor.executeCommand EditorState.initial (mkAddTextCommand "" "abc")) :=
  execute_undo_redo_eq_execute EditorState.initial (mkAddTextCommand "" "abc")
    ⟨by decide, by decide⟩ (by decide)

/-- Claim C8: the spec's concrete scenario.  From an empty document,
executing `AddTextCommand "Hello "` then `AddTextCommand "World!"`
(each constructed against the current content immediately before being
handed over) gives content `"Hello World!"`; the first `undo()` gives
`"Hello "`; the second gives `""`; a subsequent `redo()` gives
`"Hello "` again. -/
theorem hello_world_scenario :
    DocumentEditor.getContent helloState₂ = "Hello World!" ∧
    (DocumentEditor.undo helloState₂).map DocumentEditor.getContent = some "Hello " ∧
    ((DocumentEditor.undo helloState₂).bind DocumentEditor.undo).map
      DocumentEditor.getContent = some "" ∧
    (((DocumentEditor.undo helloState₂).bind DocumentEditor.undo).bind
      DocumentEditor.redo).map DocumentEditor.getContent = some "Hello " := by
  decide

/-- Claim C9: for every content string `s`, `removeText(0)` sets the
content to the empty string (never "leaves it unchanged"): the code
computes `content.slice(0, -0)`, which is `content.slice(0, 0) = ""`. -/
theorem removeText_zero_empties (s : String) : Document.removeText s 0 = "" :=
  rfl

/-- Claim C10: for every command (either variant) and every document
content, `undo` is idempotent — it unconditionally overwrites the
content with the fixed construction-time snapshot `previousContent`, so
applying it twice equals applying it once. -/
theorem command_undo_idempotent (c : Command) (s : String) :
    c.undo (c.undo s) = c.undo s := by
  cases c <;> rfl

end TsHero
